/-
Verification of the miniproject analytics backend (backend/app/data_loader.py,
backend/app/services.py, backend/app/models.py) against its specification.

The three CSV-backed tables are embedded as Lean lists of rows.  Numeric CSV
columns (costs, accuracy, latency) are modelled as rationals; timestamps as
integers (only their ordering and their calendar day matter to the code under
verification).  Nullable cells (pandas NaN / NaT) are modelled as Option; the
pandas aggregations `sum`, `mean`, `count` skip nulls, which the embedding
mirrors by aggregating over the present values.  DataFrames carry no NaN in
columns the model types as non-optional; this matches the sample data layout
described by the spec (tokens/costs/latency always present on a run row).
-/
import Mathlib

/-- Trial status enumeration (models.TrialStatus). -/
inductive TrialStatus where
  | pending
  | running
  | finished
  | failed
deriving DecidableEq, Repr

/-- Rendering used where the code compares status strings. -/
def statusString : TrialStatus → String
  | .pending => "pending"
  | .running => "running"
  | .finished => "finished"
  | .failed => "failed"

/-- A normalized row of experiments.csv after DataManager loading. -/
structure ExperimentRow where
  id : Int
  name : String
  project_id : String
  created_at : Int
  is_deleted : Bool
deriving DecidableEq, Repr

/-- A normalized row of trials.csv after DataManager loading. -/
structure TrialRow where
  id : Int
  experiment_id : Int
  status : TrialStatus
  created_at : Int
  accuracy : Option ℚ
  duration_seconds : Option ℚ
deriving DecidableEq, Repr

/-- A normalized row of runs.csv after DataManager loading. -/
structure RunRow where
  id : Int
  trial_id : Int
  tokens : Int
  costs : ℚ
  latency_ms : ℚ
  created_at : Int
deriving DecidableEq, Repr

/-- Mean of a list of rationals; none when the list is empty.  This models a
pandas `mean`, which is NaN on an empty series (the call sites convert the NaN
to None / keep it missing). -/
def listMean (l : List ℚ) : Option ℚ :=
  if l.isEmpty then none else some (l.sum / l.length)

/-- Stable insertion of `a` into `l`: `a` is placed before the first element
`b` with `le a b`. -/
def insertBy {α : Type} (le : α → α → Bool) (a : α) : List α → List α
  | [] => [a]
  | b :: l => if le a b then a :: b :: l else b :: insertBy le a l

/-- Insertion sort with a boolean comparator; models pandas
`DataFrame.sort_values` and Python `sorted` (only the ordering of the output
matters to the verified properties, not tie placement). -/
def sortBy {α : Type} (le : α → α → Bool) : List α → List α
  | [] => []
  | a :: l => insertBy le a (sortBy le l)

/-- Sort on a key, ascending or descending. -/
def sortOn {α β : Type} [LinearOrder β] (key : α → β) (asc : Bool) (l : List α) : List α :=
  if asc then sortBy (fun a b => decide (key a ≤ key b)) l
  else sortBy (fun a b => decide (key b ≤ key a)) l

theorem insertBy_perm {α : Type} (le : α → α → Bool) (a : α) :
    ∀ l : List α, List.Perm (insertBy le a l) (a :: l) := by
  intro l
  induction l with
  | nil => exact List.Perm.refl _
  | cons b l ih =>
      simp only [insertBy]
      by_cases h : le a b = true
      · rw [if_pos h]
      · rw [if_neg h]
        exact (ih.cons b).trans (List.Perm.swap a b l)

theorem sortBy_perm {α : Type} (le : α → α → Bool) :
    ∀ l : List α, List.Perm (sortBy le l) l := by
  intro l
  induction l with
  | nil => exact List.Perm.refl _
  | cons a l ih => exact (insertBy_perm le a (sortBy le l)).trans (ih.cons a)

theorem sortBy_length {α : Type} (le : α → α → Bool) (l : List α) :
    (sortBy le l).length = l.length :=
  (sortBy_perm le l).length_eq

theorem sortOn_length {α β : Type} [LinearOrder β] (key : α → β) (asc : Bool) (l : List α) :
    (sortOn key asc l).length = l.length := by
  unfold sortOn
  by_cases h : asc <;> simp [h, sortBy_length]

theorem mem_insertBy {α : Type} (le : α → α → Bool) (a x : α) (l : List α) :
    x ∈ insertBy le a l ↔ x = a ∨ x ∈ l := by
  have h := (insertBy_perm le a l).mem_iff (a := x)
  simpa [List.mem_cons] using h

theorem pairwise_insertBy {α : Type} (le : α → α → Bool)
    (htot : ∀ x y, le x y = true ∨ le y x = true)
    (htr : ∀ x y z, le x y = true → le y z = true → le x z = true)
    (a : α) : ∀ l : List α, l.Pairwise (fun x y => le x y = true) →
      (insertBy le a l).Pairwise (fun x y => le x y = true) := by
  intro l
  induction l with
  | nil =>
      intro _
      simp [insertBy]
  | cons b l ih =>
      intro h
      rcases List.pairwise_cons.mp h with ⟨hb, hl⟩
      simp only [insertBy]
      by_cases hab : le a b = true
      · rw [if_pos hab]
        refine List.pairwise_cons.mpr ⟨?_, h⟩
        intro x hx
        rcases List.mem_cons.mp hx with hx | hx
        · subst hx
          exact hab
        · exact htr a b x hab (hb x hx)
      · rw [if_neg hab]
        refine List.pairwise_cons.mpr ⟨?_, ih hl⟩
        intro x hx
        rcases (mem_insertBy le a x l).mp hx with hx | hx
        · rw [hx]
          rcases htot a b with h1 | h1
          · exact absurd h1 hab
          · exact h1
        · exact hb x hx

theorem pairwise_sortBy {α : Type} (le : α → α → Bool)
    (htot : ∀ x y, le x y = true ∨ le y x = true)
    (htr : ∀ x y z, le x y = true → le y z = true → le x z = true) :
    ∀ l : List α, (sortBy le l).Pairwise (fun x y => le x y = true) := by
  intro l
  induction l with
  | nil => simp [sortBy]
  | cons a l ih => exact pairwise_insertBy le htot htr a _ ih

/-- Substring test (models pandas `.str.contains` / Python `in` on the plain,
non-regex reading the spec gives those filters). -/
def strContains (s q : String) : Bool :=
  q.isEmpty || (s.splitOn q).length ≥ 2

/-! ## Aggregator (DataManager._precompute_aggregations) -/

/-- A trial row augmented with the run rollup columns the merge step adds. -/
structure TrialAggRow where
  base : TrialRow
  total_cost : ℚ
  total_tokens : Int
  avg_latency_ms : Option ℚ
  run_count : Nat
deriving DecidableEq, Repr

/-- Runs grouped under one trial id (the groupby("trial_id") group). -/
def runsOfTrial (runs : List RunRow) (tid : Int) : List RunRow :=
  runs.filter (fun r => decide (r.trial_id = tid))

/-- Run-to-trial rollup: groupby("trial_id") aggregation left-merged onto the
trials table.  For a trial with no runs the merge leaves NaN in the four new
columns and the subsequent `fillna` names only total_cost, total_tokens and
run_count, so avg_latency_ms stays NaN (modelled: `listMean [] = none`). -/
def precomputeTrialAggs (trials : List TrialRow) (runs : List RunRow) : List TrialAggRow :=
  trials.map fun t =>
    let rs := runsOfTrial runs t.id
    { base := t
      total_cost := (rs.map RunRow.costs).sum
      total_tokens := (rs.map RunRow.tokens).sum
      avg_latency_ms := listMean (rs.map RunRow.latency_ms)
      run_count := rs.length }

/-- An experiment row augmented with the trial rollup columns. -/
structure ExperimentAggRow where
  base : ExperimentRow
  avg_accuracy : Option ℚ
  total_cost : ℚ
  total_trials : Nat
  total_runs : Nat
deriving DecidableEq, Repr

/-- Trials grouped under one experiment id. -/
def trialsOfExperiment (trials : List TrialAggRow) (eid : Int) : List TrialAggRow :=
  trials.filter (fun t => decide (t.base.experiment_id = eid))

/-- Trial-to-experiment rollup: groupby("experiment_id") aggregation
left-merged onto the experiments table, with the fillna step zero-filling
total_cost/total_trials/total_runs and keeping avg_accuracy NaN. -/
def precomputeExpAggs (exps : List ExperimentRow) (trials : List TrialAggRow) :
    List ExperimentAggRow :=
  exps.map fun e =>
    let ts := trialsOfExperiment trials e.id
    { base := e
      avg_accuracy := listMean (ts.filterMap (fun t => t.base.accuracy))
      total_cost := (ts.map TrialAggRow.total_cost).sum
      total_trials := ts.length
      total_runs := (ts.map TrialAggRow.run_count).sum }

/-! ## Metrics (DataManager.get_dashboard_stats) -/

/-- The KPI record get_dashboard_stats returns.  The two means are Option:
the code converts a NaN mean to None before returning. -/
structure DashboardKpis where
  total_experiments : Nat
  total_trials : Nat
  total_runs : Nat
  total_cost : ℚ
  avg_accuracy : Option ℚ
  avg_latency_ms : Option ℚ
  active_trials : Nat
  failed_trials : Nat
  success_rate : ℚ
deriving DecidableEq, Repr

/-- Trials whose status column equals "finished". -/
def finishedTrials (trials : List TrialAggRow) : List TrialAggRow :=
  trials.filter (fun t => decide (t.base.status = TrialStatus.finished))

/-- DataManager.get_dashboard_stats, the pure computation (its lru_cache
wrapper is modelled separately on SystemState).  avg over an empty or
all-null series is NaN in pandas and the code maps it to None; sums of empty
series are 0.0; success_rate divides by max(total_trials, 1). -/
def computeDashboardStats (exps : List ExperimentAggRow) (trials : List TrialAggRow)
    (runs : List RunRow) : DashboardKpis :=
  { total_experiments := exps.length
    total_trials := trials.length
    total_runs := runs.length
    total_cost := (runs.map RunRow.costs).sum
    avg_accuracy := listMean ((finishedTrials trials).filterMap (fun t => t.base.accuracy))
    avg_latency_ms := listMean (runs.map RunRow.latency_ms)
    active_trials := (trials.filter (fun t =>
      decide (t.base.status = TrialStatus.pending) || decide (t.base.status = TrialStatus.running))).length
    failed_trials := (trials.filter (fun t => decide (t.base.status = TrialStatus.failed))).length
    success_rate := ((finishedTrials trials).length : ℚ) / (max trials.length 1 : ℚ) * 100 }

/-- Modelled from the spec wording of the claim, for comparison with the code:
"the mean accuracy over trials with status finished only", null when that mean
is undefined. -/
def specAvgAccuracy (trials : List TrialAggRow) : Option ℚ :=
  listMean ((trials.filter (fun t => decide (t.base.status = TrialStatus.finished))).filterMap
    (fun t => t.base.accuracy))

/-! ## Query engine (DataManager.get_experiments and friends) -/

/-- Filter parameters of the experiments listing (models.ExperimentFilter;
the service layer drops None entries before passing the dict down). -/
structure ExperimentFilterArgs where
  name : Option String
  project_id : Option String
  created_after : Option Int
  created_before : Option Int
deriving Repr

/-- The filter block of DataManager.get_experiments.  `filters.get("name")`
and `filters.get("project_id")` are Python truthiness tests, so an empty
string disables those filters; the date bounds test `is not None`. -/
def applyExperimentFilters (f : ExperimentFilterArgs) (df : List ExperimentAggRow) :
    List ExperimentAggRow :=
  let df1 := match f.name with
    | some n => if n.isEmpty then df else
        df.filter (fun e => strContains e.base.name.toLower n.toLower)
    | none => df
  let df2 := match f.project_id with
    | some p => if p.isEmpty then df1 else df1.filter (fun e => decide (e.base.project_id = p))
    | none => df1
  let df3 := match f.created_after with
    | some d => df2.filter (fun e => decide (d ≤ e.base.created_at))
    | none => df2
  match f.created_before with
    | some d => df3.filter (fun e => decide (e.base.created_at ≤ d))
    | none => df3

/-- The sort block of DataManager.get_experiments, for the sort keys the API
admits (routes.py restricts sort_by to created_at|name|total_cost); any other
string leaves the current order, as `sort_by in df.columns` fails for it. -/
def sortExperiments (sort_by sort_order : String) (df : List ExperimentAggRow) :
    List ExperimentAggRow :=
  let asc := sort_order = "asc"
  if sort_by = "created_at" then sortOn (fun e => e.base.created_at) asc df
  else if sort_by = "name" then sortOn (fun e => e.base.name) asc df
  else if sort_by = "total_cost" then sortOn ExperimentAggRow.total_cost asc df
  else df

/-- The filtered, sorted experiment set before pagination. -/
def experimentsQueryBase (exps : List ExperimentAggRow) (f : ExperimentFilterArgs)
    (sort_by sort_order : String) : List ExperimentAggRow :=
  sortExperiments sort_by sort_order (applyExperimentFilters f exps)

/-- DataManager.get_experiments: filter, sort, take the page
df.iloc[offset : offset + limit], and return it with the pre-pagination
count. -/
def get_experiments (exps : List ExperimentAggRow) (offset limit : Nat)
    (f : ExperimentFilterArgs) (sort_by sort_order : String) :
    List ExperimentAggRow × Nat :=
  let df := experimentsQueryBase exps f sort_by sort_order
  ((df.drop offset).take limit, df.length)

/-! ## Cost breakdown (DataManager.get_cost_by_experiment) -/

/-- One entry of the cost-by-experiment response. -/
structure CostRow where
  experiment_id : Int
  experiment_name : String
  total_cost : ℚ
  percentage : ℚ
  run_count : Nat
deriving DecidableEq, Repr

/-- The merge step of get_cost_by_experiment: experiment names left-joined
onto the rolled-up trials.  Trials whose experiment_id matches no experiment
get a NaN name, and the later groupby drops NaN keys, so they are dropped
here. -/
def costMergedRows (trials : List TrialAggRow) (exps : List ExperimentAggRow) :
    List (TrialAggRow × String) :=
  trials.filterMap (fun t =>
    (exps.find? (fun e => decide (e.base.id = t.base.experiment_id))).map
      (fun e => (t, e.base.name)))

/-- The distinct (experiment_id, name) group keys of the groupby. -/
def costGroupKeys (trials : List TrialAggRow) (exps : List ExperimentAggRow) :
    List (Int × String) :=
  ((costMergedRows trials exps).map (fun p => (p.1.base.experiment_id, p.2))).dedup

/-- The rows of one (experiment_id, name) group. -/
def costGroup (trials : List TrialAggRow) (exps : List ExperimentAggRow)
    (k : Int × String) : List (TrialAggRow × String) :=
  (costMergedRows trials exps).filter (fun p =>
    decide (p.1.base.experiment_id = k.1) && decide (p.2 = k.2))

/-- The summed cost of one group (agg total_cost=("total_cost", "sum")). -/
def costGroupCost (trials : List TrialAggRow) (exps : List ExperimentAggRow)
    (k : Int × String) : ℚ :=
  ((costGroup trials exps k).map (fun p => p.1.total_cost)).sum

/-- The grand total `float(grouped["total_cost"].sum())`. -/
def costGrandTotal (trials : List TrialAggRow) (exps : List ExperimentAggRow) : ℚ :=
  ((costGroupKeys trials exps).map (costGroupCost trials exps)).sum

/-- The per-experiment result rows before the final sort; percentage is 0
unless the grand total is positive. -/
def costRowsUnsorted (trials : List TrialAggRow) (exps : List ExperimentAggRow) :
    List CostRow :=
  (costGroupKeys trials exps).map (fun k =>
    { experiment_id := k.1
      experiment_name := k.2
      total_cost := costGroupCost trials exps k
      percentage := if 0 < costGrandTotal trials exps then
          costGroupCost trials exps k / costGrandTotal trials exps * 100 else 0
      run_count := ((costGroup trials exps k).map (fun p => p.1.run_count)).sum : CostRow })

/-- DataManager.get_cost_by_experiment: group the merged trials by
(experiment_id, name), attach percentages of the grand total, and return the
rows sorted by total_cost, highest spend first. -/
def get_cost_by_experiment (trials : List TrialAggRow) (exps : List ExperimentAggRow) :
    List CostRow :=
  sortOn CostRow.total_cost false (costRowsUnsorted trials exps)

/-! ## Daily costs, search, accuracy curve -/

/-- One entry of the daily-costs response; the date is the calendar day
number. -/
structure DailyCostRow where
  date : Int
  total_cost : ℚ
  run_count : Nat
  experiment_count : Nat
deriving DecidableEq, Repr

/-- Calendar day of a timestamp (df_runs["created_at"].dt.date). -/
def dayOf (ts : Int) : Int := ts / 86400

/-- DataManager.get_daily_costs: derive each run's date, pull experiment_id
via the trials table, group by date (ascending), and keep the last `days`
entries (`out[-days:]`; a zero `days` keeps everything, though the route
enforces days ≥ 1).  `nunique` counts distinct non-null experiment ids. -/
def get_daily_costs (runs : List RunRow) (trials : List TrialAggRow) (days : Nat) :
    List DailyCostRow :=
  let withDate := runs.map (fun r => (r, dayOf r.created_at))
  let dates := sortOn id true ((withDate.map (fun p => p.2)).dedup)
  let daily := dates.map (fun d =>
    let g := withDate.filter (fun p => decide (p.2 = d))
    { date := d
      total_cost := (g.map (fun p => p.1.costs)).sum
      run_count := g.length
      experiment_count := ((g.filterMap (fun p =>
        (trials.find? (fun t => decide (t.base.id = p.1.trial_id))).map
          (fun t => t.base.experiment_id))).dedup).length : DailyCostRow })
  if days = 0 then daily else daily.drop (daily.length - days)

/-- The search response of DataManager.search. -/
structure SearchResults where
  experiments : List ExperimentAggRow
  trials : List TrialAggRow
deriving Repr

/-- DataManager.search: case-insensitive substring match on experiment
name/project_id and on trial status, each list capped at 10. -/
def searchTables (exps : List ExperimentAggRow) (trials : List TrialAggRow)
    (q : String) : SearchResults :=
  let ql := q.toLower
  { experiments := (exps.filter (fun e =>
      strContains e.base.name.toLower ql || strContains e.base.project_id.toLower ql)).take 10
    trials := (trials.filter (fun t => strContains (statusString t.base.status) ql)).take 10 }

/-- One point of the accuracy-curve response. -/
structure AccuracyPoint where
  trial_id : Int
  timestamp : Int
  accuracy : ℚ
  status : TrialStatus
deriving DecidableEq, Repr

/-- DataManager.get_accuracy_curve: finished trials of the experiment with a
non-null accuracy, ascending by created_at. -/
def get_accuracy_curve (trials : List TrialAggRow) (eid : Int) : List AccuracyPoint :=
  let tri := trials.filter (fun t =>
    decide (t.base.experiment_id = eid) && decide (t.base.status = TrialStatus.finished)
      && t.base.accuracy.isSome)
  (sortOn (fun t => t.base.created_at) true tri).filterMap (fun t =>
    t.base.accuracy.map (fun a =>
      { trial_id := t.base.id, timestamp := t.base.created_at, accuracy := a,
        status := t.base.status : AccuracyPoint }))

/-! ## Trial service (services.TrialService) -/

/-- DataManager.get_runs_by_trial: the trial's runs, oldest first. -/
def get_runs_by_trial (runs : List RunRow) (tid : Int) : List RunRow :=
  sortOn RunRow.created_at true (runs.filter (fun r => decide (r.trial_id = tid)))

/-- A run record enriched with the derived cost_per_token field. -/
structure RunWithCpt where
  run : RunRow
  cost_per_token : ℚ
deriving DecidableEq, Repr

/-- TrialService.get_trial_runs: each run gains
cost_per_token = costs / tokens if tokens > 0 else 0. -/
def trialServiceGetTrialRuns (runs : List RunRow) (tid : Int) : List RunWithCpt :=
  (get_runs_by_trial runs tid).map (fun r =>
    { run := r
      cost_per_token := if 0 < r.tokens then r.costs / (r.tokens : ℚ) else 0 })

/-- The dict TrialService.get_trial_stats returns; min_latency/max_latency are
Option because the keys are absent from the empty-trial dict. -/
structure TrialStatsResult where
  total_runs : Nat
  total_cost : ℚ
  avg_latency : ℚ
  total_tokens : Int
  min_latency : Option ℚ
  max_latency : Option ℚ
deriving DecidableEq, Repr

/-- TrialService.get_trial_stats: zero-filled four-key dict when the trial has
no runs, otherwise the aggregates together with min/max latency. -/
def get_trial_stats (runs : List RunRow) (tid : Int) : TrialStatsResult :=
  let rs := get_runs_by_trial runs tid
  match rs with
  | [] => { total_runs := 0, total_cost := 0, avg_latency := 0, total_tokens := 0,
            min_latency := none, max_latency := none }
  | _ :: _ =>
      { total_runs := rs.length
        total_cost := (rs.map RunRow.costs).sum
        avg_latency := (rs.map RunRow.latency_ms).sum / rs.length
        total_tokens := (rs.map RunRow.tokens).sum
        min_latency := (rs.map RunRow.latency_ms).min?
        max_latency := (rs.map RunRow.latency_ms).max? }

/-! ## Trend analysis (services.AnalyticsService.get_trends) -/

/-- The comparison `iloc[-1] > iloc[-5]` on floats where either side may be
NaN: any comparison against NaN is False. -/
def optGtNaN : Option ℚ → Option ℚ → Bool
  | some x, some y => decide (y < x)
  | _, _ => false

/-- pandas Series.rolling(window=5).mean(): entry i is the mean of the window
ending at i when the window holds 5 non-null values, NaN otherwise. -/
def rollingMean5 (xs : List (Option ℚ)) : List (Option ℚ) :=
  (List.range xs.length).map (fun i =>
    if 4 ≤ i then
      let w := (xs.drop (i - 4)).take 5
      if w.all Option.isSome then listMean (w.filterMap id) else none
    else none)

/-- The finished trials sorted by created_at, as get_trends builds them. -/
def finishedSortedTrials (trials : List TrialAggRow) : List TrialAggRow :=
  sortOn (fun t => t.base.created_at) true
    (trials.filter (fun t => decide (t.base.status = TrialStatus.finished)))

/-- The rolling-mean accuracy series of get_trends. -/
def accuracyTrendSeries (trials : List TrialAggRow) : List (Option ℚ) :=
  rollingMean5 ((finishedSortedTrials trials).map (fun t => t.base.accuracy))

/-- The accuracy-trend part of AnalyticsService.get_trends: only when *more
than 5* finished trials exist (`len(finished_trials) > 5`), compare the last
rolling mean against the fifth-from-last (the inner `len >= 5` guard, modelled
by the inner conditional); otherwise the direction is None. -/
def accuracyImproving (trials : List TrialAggRow) : Option Bool :=
  if 5 < (finishedSortedTrials trials).length then
    if 5 ≤ (accuracyTrendSeries trials).length then
      some (optGtNaN
        ((accuracyTrendSeries trials).getD ((accuracyTrendSeries trials).length - 1) none)
        ((accuracyTrendSeries trials).getD ((accuracyTrendSeries trials).length - 5) none))
    else none
  else none

/-! ## Stateful layer: tables, reload and the two memoization layers

DataManager keeps the three tables as instance state; its get_dashboard_stats
carries an lru_cache that `initialize` clears after a reload.  MetricsService
adds two more lru_cache layers (dashboard stats and cost breakdown) that only
MetricsService.clear_cache clears.  The state below holds the tables and all
three caches; every operation returns its result together with the state it
leaves behind. -/

structure SystemState where
  experiments_df : List ExperimentAggRow
  trials_df : List TrialAggRow
  runs_df : List RunRow
  dmDashboardCache : Option DashboardKpis
  svcDashboardCache : Option DashboardKpis
  svcCostCache : Option (List CostRow)
deriving DecidableEq, Repr

/-- The three public tables of a state. -/
def tablesOf (s : SystemState) :
    List ExperimentAggRow × List TrialAggRow × List RunRow :=
  (s.experiments_df, s.trials_df, s.runs_df)

/-- DataManager.initialize on already-normalized inputs: store the tables, run
_precompute_aggregations, and clear the DataManager-level dashboard cache
(`self.get_dashboard_stats.cache_clear()`).  The MetricsService caches are not
touched. -/
def reloadTables (exp : List ExperimentRow) (tri : List TrialRow) (run : List RunRow)
    (s : SystemState) : SystemState :=
  let trialsAgg := precomputeTrialAggs tri run
  { experiments_df := precomputeExpAggs exp trialsAgg
    trials_df := trialsAgg
    runs_df := run
    dmDashboardCache := none
    svcDashboardCache := s.svcDashboardCache
    svcCostCache := s.svcCostCache }

/-- DataManager.get_dashboard_stats with its lru_cache. -/
def dmGetDashboardStats (s : SystemState) : DashboardKpis × SystemState :=
  match s.dmDashboardCache with
  | some v => (v, s)
  | none =>
      let v := computeDashboardStats s.experiments_df s.trials_df s.runs_df
      (v, { s with dmDashboardCache := some v })

/-- MetricsService.get_dashboard_stats: its own lru_cache over the
DataManager call. -/
def svcGetDashboardStats (s : SystemState) : DashboardKpis × SystemState :=
  match s.svcDashboardCache with
  | some v => (v, s)
  | none =>
      let p := dmGetDashboardStats s
      (p.1, { p.2 with svcDashboardCache := some p.1 })

/-- MetricsService.get_cost_breakdown: lru_cache over
DataManager.get_cost_by_experiment (which itself has no cache). -/
def svcGetCostBreakdown (s : SystemState) : List CostRow × SystemState :=
  match s.svcCostCache with
  | some v => (v, s)
  | none =>
      let v := get_cost_by_experiment s.trials_df s.experiments_df
      (v, { s with svcCostCache := some v })

/-- MetricsService.clear_cache: clears the two MetricsService caches (and
only those). -/
def svcClearCache (s : SystemState) : SystemState :=
  { s with svcDashboardCache := none, svcCostCache := none }

/-- DataManager.get_experiments as a state operation (reads only). -/
def dmGetExperimentsOp (s : SystemState) (offset limit : Nat) (f : ExperimentFilterArgs)
    (sort_by sort_order : String) : (List ExperimentAggRow × Nat) × SystemState :=
  (get_experiments s.experiments_df offset limit f sort_by sort_order, s)

/-- DataManager.get_cost_by_experiment as a state operation (reads only). -/
def dmGetCostByExperimentOp (s : SystemState) : List CostRow × SystemState :=
  (get_cost_by_experiment s.trials_df s.experiments_df, s)

/-- DataManager.get_daily_costs as a state operation (it copies runs_df before
adding the date column, so the stored table is untouched). -/
def dmGetDailyCostsOp (s : SystemState) (days : Nat) : List DailyCostRow × SystemState :=
  (get_daily_costs s.runs_df s.trials_df days, s)

/-- DataManager.search as a state operation (reads only). -/
def dmSearchOp (s : SystemState) (q : String) : SearchResults × SystemState :=
  (searchTables s.experiments_df s.trials_df q, s)

/-- DataManager.get_accuracy_curve as a state operation (it copies the
filtered frame before sorting). -/
def dmGetAccuracyCurveOp (s : SystemState) (eid : Int) : List AccuracyPoint × SystemState :=
  (get_accuracy_curve s.trials_df eid, s)

/-! ## Claim theorems -/

/-- A trial used to exhibit the aggregation behaviour on a trial with no
runs. -/
def noRunTrial : TrialRow :=
  { id := 1, experiment_id := 1, status := TrialStatus.finished, created_at := 0,
    accuracy := some (4/5), duration_seconds := none }

/-- C1: evaluating the run-to-trial aggregation at a trial having no runs,
total_cost, total_tokens and run_count come out zero-filled but avg_latency_ms
is left null, because the fillna mapping in _precompute_aggregations names
only the other three columns.  This contradicts the claim that all four
derived columns are zero-filled (avg_latency_ms = 0). -/
theorem trial_agg_no_runs_latency_not_filled :
    precomputeTrialAggs [noRunTrial] [] =
      [{ base := noRunTrial, total_cost := 0, total_tokens := 0,
         avg_latency_ms := none, run_count := 0 }] := rfl

/-- C2: the dashboard avg_accuracy is the mean accuracy over finished trials
only (matching the spec-side definition); it is None whenever no finished
trial carries an accuracy value; and on fully empty tables every count and
total is 0, both means are None, and the computation returns (it never
raises: it is a total function). -/
theorem dashboard_avg_accuracy_finished_only (exps : List ExperimentAggRow)
    (trials : List TrialAggRow) (runs : List RunRow) :
    (computeDashboardStats exps trials runs).avg_accuracy = specAvgAccuracy trials
    ∧ ((finishedTrials trials).filterMap (fun t => t.base.accuracy) = [] →
        (computeDashboardStats exps trials runs).avg_accuracy = none)
    ∧ computeDashboardStats [] [] [] =
        { total_experiments := 0, total_trials := 0, total_runs := 0, total_cost := 0,
          avg_accuracy := none, avg_latency_ms := none, active_trials := 0,
          failed_trials := 0, success_rate := 0 } := by
  refine ⟨rfl, ?_, ?_⟩
  · intro h
    show listMean ((finishedTrials trials).filterMap (fun t => t.base.accuracy)) = none
    rw [h]
    rfl
  · simp [computeDashboardStats, finishedTrials, listMean]

/-- C7: success_rate is finished/max(total,1)*100, hence within [0, 100]; it
equals finished/total*100 whenever at least one trial exists, and is exactly 0
on an empty trial table. -/
theorem dashboard_success_rate_bounds (exps : List ExperimentAggRow)
    (trials : List TrialAggRow) (runs : List RunRow) :
    0 ≤ (computeDashboardStats exps trials runs).success_rate
    ∧ (computeDashboardStats exps trials runs).success_rate ≤ 100
    ∧ (trials ≠ [] → (computeDashboardStats exps trials runs).success_rate
        = ((finishedTrials trials).length : ℚ) / (trials.length : ℚ) * 100)
    ∧ (trials = [] → (computeDashboardStats exps trials runs).success_rate = 0) := by
  have hfin : (finishedTrials trials).length ≤ trials.length :=
    List.length_filter_le _ _
  have hm1 : (1 : ℚ) ≤ max (trials.length : ℚ) 1 := le_max_right _ _
  have hm0 : (0 : ℚ) < max (trials.length : ℚ) 1 := lt_of_lt_of_le one_pos hm1
  have hsr : (computeDashboardStats exps trials runs).success_rate
      = ((finishedTrials trials).length : ℚ) / max (trials.length : ℚ) 1 * 100 := rfl
  refine ⟨?_, ?_, ?_, ?_⟩
  · rw [hsr]
    have := div_nonneg (show (0:ℚ) ≤ ((finishedTrials trials).length : ℚ) by positivity)
      (le_of_lt hm0)
    nlinarith
  · rw [hsr]
    have hle : ((finishedTrials trials).length : ℚ) / max (trials.length : ℚ) 1 ≤ 1 := by
      rw [div_le_one hm0]
      calc ((finishedTrials trials).length : ℚ) ≤ (trials.length : ℚ) := by
            exact_mod_cast hfin
        _ ≤ max (trials.length : ℚ) 1 := le_max_left _ _
    nlinarith
  · intro hne
    rw [hsr]
    have hpos : 1 ≤ trials.length := List.length_pos.mpr hne
    have : max (trials.length : ℚ) 1 = (trials.length : ℚ) := by
      apply max_eq_left
      exact_mod_cast hpos
    rw [this]
  · intro he
    subst he
    rw [hsr]
    norm_num [finishedTrials]

/-- C9: none of the read paths — list experiments, cost-by-experiment, daily
costs, search, accuracy curve, and dashboard stats at both cache layers —
changes the three stored tables; the dashboard calls may fill caches but the
tables of the resulting state are the tables of the input state. -/
theorem query_ops_preserve_tables (s : SystemState) (offset limit : Nat)
    (f : ExperimentFilterArgs) (sort_by sort_order : String) (days : Nat)
    (q : String) (eid : Int) :
    tablesOf (dmGetExperimentsOp s offset limit f sort_by sort_order).2 = tablesOf s
    ∧ tablesOf (dmGetCostByExperimentOp s).2 = tablesOf s
    ∧ tablesOf (dmGetDailyCostsOp s days).2 = tablesOf s
    ∧ tablesOf (dmSearchOp s q).2 = tablesOf s
    ∧ tablesOf (dmGetAccuracyCurveOp s eid).2 = tablesOf s
    ∧ tablesOf (dmGetDashboardStats s).2 = tablesOf s
    ∧ tablesOf (svcGetDashboardStats s).2 = tablesOf s
    ∧ tablesOf (svcGetCostBreakdown s).2 = tablesOf s := by
  refine ⟨rfl, rfl, rfl, rfl, rfl, ?_, ?_, ?_⟩
  · unfold dmGetDashboardStats
    cases hc : s.dmDashboardCache <;> simp [tablesOf]
  · unfold svcGetDashboardStats dmGetDashboardStats
    cases hc : s.svcDashboardCache
    · cases hd : s.dmDashboardCache <;> simp [tablesOf]
    · simp [tablesOf]
  · unfold svcGetCostBreakdown
    cases hc : s.svcCostCache <;> simp [tablesOf]

/-- C3 (amended): a reload clears only the DataManager-level dashboard cache
and leaves both MetricsService caches in place; the explicit cache-clear
operation clears both MetricsService caches; and after a reload followed by
cache-clear both service calls return values computed from the new tables. -/
theorem reload_and_clear_cache_behaviour (s : SystemState) (exp : List ExperimentRow)
    (tri : List TrialRow) (run : List RunRow) :
    (reloadTables exp tri run s).dmDashboardCache = none
    ∧ (reloadTables exp tri run s).svcDashboardCache = s.svcDashboardCache
    ∧ (reloadTables exp tri run s).svcCostCache = s.svcCostCache
    ∧ (svcClearCache s).svcDashboardCache = none
    ∧ (svcClearCache s).svcCostCache = none
    ∧ (svcGetDashboardStats (svcClearCache (reloadTables exp tri run s))).1
        = computeDashboardStats (reloadTables exp tri run s).experiments_df
            (reloadTables exp tri run s).trials_df (reloadTables exp tri run s).runs_df
    ∧ (svcGetCostBreakdown (svcClearCache (reloadTables exp tri run s))).1
        = get_cost_by_experiment (reloadTables exp tri run s).trials_df
            (reloadTables exp tri run s).experiments_df :=
  ⟨rfl, rfl, rfl, rfl, rfl, rfl, rfl⟩

/-- Concrete rows for the cache-staleness counterexample. -/
def cexExp : ExperimentRow :=
  { id := 1, name := "a", project_id := "p", created_at := 0, is_deleted := false }

def cexTrial : TrialRow :=
  { id := 1, experiment_id := 1, status := TrialStatus.finished, created_at := 0,
    accuracy := some 1, duration_seconds := none }

def cexRun1 : RunRow :=
  { id := 1, trial_id := 1, tokens := 10, costs := 5, latency_ms := 100, created_at := 0 }

def cexRun2 : RunRow :=
  { id := 2, trial_id := 1, tokens := 10, costs := 7, latency_ms := 100, created_at := 0 }

def cexEmptyState : SystemState :=
  { experiments_df := [], trials_df := [], runs_df := [],
    dmDashboardCache := none, svcDashboardCache := none, svcCostCache := none }

/-- State after the first load (one run) and a dashboard-stats call that
fills the MetricsService cache. -/
def cexState1 : SystemState :=
  (svcGetDashboardStats (reloadTables [cexExp] [cexTrial] [cexRun1] cexEmptyState)).2

/-- State after a reload with two runs; no cache-clear was issued. -/
def cexState2 : SystemState :=
  reloadTables [cexExp] [cexTrial] [cexRun1, cexRun2] cexState1

/-- C3 counterexample: after the tables are reloaded (now two runs), the
service-level dashboard stats still returns the value cached from the
previous tables (total_runs = 1 instead of 2), so a cached result computed
from the previous tables is returned after a reload. -/
theorem cache_survives_reload_counterexample :
    (svcGetDashboardStats cexState2).1.total_runs = 1
    ∧ (computeDashboardStats cexState2.experiments_df cexState2.trials_df
        cexState2.runs_df).total_runs = 2
    ∧ (svcGetDashboardStats cexState2).1
        ≠ computeDashboardStats cexState2.experiments_df cexState2.trials_df
            cexState2.runs_df := by
  refine ⟨rfl, rfl, ?_⟩
  intro h
  have h2 := congrArg DashboardKpis.total_runs h
  have h3 : (1 : Nat) = 2 := h2
  exact absurd h3 (by decide)

/-- Run used to witness the guarded cost_per_token division. -/
def zeroTokenRun : RunRow :=
  { id := 1, trial_id := 1, tokens := 0, costs := 5, latency_ms := 10, created_at := 0 }

/-- C8: every run the trial-runs listing returns carries
cost_per_token = costs / tokens when tokens > 0 and 0 when tokens = 0; the
division is guarded by the tokens > 0 test (and the function is total, so the
operation never raises). -/
theorem cost_per_token_guarded (runs : List RunRow) (tid : Int) (x : RunWithCpt)
    (hx : x ∈ trialServiceGetTrialRuns runs tid) :
    (x.run.tokens = 0 → x.cost_per_token = 0)
    ∧ (0 < x.run.tokens → x.cost_per_token = x.run.costs / (x.run.tokens : ℚ)) := by
  rcases List.mem_map.mp hx with ⟨r, hr, hxr⟩
  subst hxr
  constructor
  · intro h0
    show (if 0 < r.tokens then r.costs / (r.tokens : ℚ) else 0) = 0
    rw [if_neg]
    rw [h0] at *
    exact lt_irrefl 0
  · intro hpos
    show (if 0 < r.tokens then r.costs / (r.tokens : ℚ) else 0) = r.costs / (r.tokens : ℚ)
    exact if_pos hpos

/-- C8 witness: the tokens = 0 run yields cost_per_token = 0. -/
theorem cost_per_token_guarded_witness :
    ((⟨zeroTokenRun, 0⟩ : RunWithCpt).run.tokens = 0 →
      (⟨zeroTokenRun, 0⟩ : RunWithCpt).cost_per_token = 0)
    ∧ (0 < (⟨zeroTokenRun, 0⟩ : RunWithCpt).run.tokens →
      (⟨zeroTokenRun, 0⟩ : RunWithCpt).cost_per_token
        = (⟨zeroTokenRun, 0⟩ : RunWithCpt).run.costs
            / ((⟨zeroTokenRun, 0⟩ : RunWithCpt).run.tokens : ℚ)) :=
  cost_per_token_guarded [zeroTokenRun] 1 ⟨zeroTokenRun, 0⟩ (by decide)

/-- C10: for a trial with no matching runs, get_trial_stats is exactly the
zero-filled four-key record with min/max latency absent (avg_latency is 0,
not null); with at least one run it additionally carries min_latency and
max_latency, and counts every matching run. -/
theorem trial_stats_empty_and_nonempty (runs : List RunRow) (tid : Int) :
    (runs.filter (fun r => decide (r.trial_id = tid)) = [] →
      get_trial_stats runs tid =
        { total_runs := 0, total_cost := 0, avg_latency := 0, total_tokens := 0,
          min_latency := none, max_latency := none })
    ∧ (runs.filter (fun r => decide (r.trial_id = tid)) ≠ [] →
      (get_trial_stats runs tid).min_latency.isSome = true
      ∧ (get_trial_stats runs tid).max_latency.isSome = true
      ∧ (get_trial_stats runs tid).total_runs
          = (runs.filter (fun r => decide (r.trial_id = tid))).length) := by
  constructor
  · intro h
    unfold get_trial_stats get_runs_by_trial
    rw [h]
    rfl
  · intro h
    have hlen : (sortOn RunRow.created_at true
        (runs.filter (fun r => decide (r.trial_id = tid)))).length
        = (runs.filter (fun r => decide (r.trial_id = tid))).length :=
      sortOn_length _ _ _
    rcases hrs : sortOn RunRow.created_at true
        (runs.filter (fun r => decide (r.trial_id = tid))) with _ | ⟨a, l⟩
    · exfalso
      rw [hrs] at hlen
      exact h (List.length_eq_zero.mp hlen.symm)
    · have hgt : get_trial_stats runs tid =
          { total_runs := (a :: l).length
            total_cost := ((a :: l).map RunRow.costs).sum
            avg_latency := ((a :: l).map RunRow.latency_ms).sum / ((a :: l).length : ℚ)
            total_tokens := ((a :: l).map RunRow.tokens).sum
            min_latency := ((a :: l).map RunRow.latency_ms).min?
            max_latency := ((a :: l).map RunRow.latency_ms).max? } := by
        unfold get_trial_stats get_runs_by_trial
        rw [hrs]
      rw [hrs] at hlen
      rw [hgt]
      refine ⟨?_, ?_, hlen⟩
      · simp [List.min?]
      · simp [List.max?]

/-- Five finished trials, each with an accuracy value. -/
def fiveFinished : List TrialAggRow :=
  [1, 2, 3, 4, 5].map (fun i =>
    { base := { id := i, experiment_id := 1, status := TrialStatus.finished,
                created_at := i, accuracy := some 1, duration_seconds := none }
      total_cost := 0, total_tokens := 0, avg_latency_ms := none, run_count := 0 })

/-- C4 counterexample: with exactly 5 finished trials the claim says the
trend direction is evaluated, but `len(finished_trials) > 5` fails and the
code returns None. -/
theorem accuracy_trend_five_counterexample :
    (fiveFinished.filter (fun t => decide (t.base.status = TrialStatus.finished))).length = 5
    ∧ accuracyImproving fiveFinished = none := by
  constructor
  · rfl
  · rfl

/-- C4 (amended): the accuracy trend direction is defined exactly when more
than 5 (that is, at least 6) finished trials exist; with 5 or fewer it is
None. -/
theorem accuracy_trend_needs_more_than_five (trials : List TrialAggRow) :
    (accuracyImproving trials).isSome = true
      ↔ 5 < (trials.filter (fun t => decide (t.base.status = TrialStatus.finished))).length := by
  have hlen : (finishedSortedTrials trials).length
      = (trials.filter (fun t => decide (t.base.status = TrialStatus.finished))).length :=
    sortOn_length _ _ _
  unfold accuracyImproving
  by_cases h : 5 < (finishedSortedTrials trials).length
  · rw [if_pos h]
    have h2 : 5 ≤ (accuracyTrendSeries trials).length := by
      unfold accuracyTrendSeries rollingMean5
      rw [List.length_map, List.length_range, List.length_map]
      omega
    rw [if_pos h2]
    simp only [Option.isSome_some, true_iff]
    omega
  · rw [if_neg h]
    simp only [Option.isSome_none, Bool.false_eq_true, false_iff]
    omega

/-- Concatenating the pages of size m over offsets 0, m, 2m, ... reproduces
the whole list once the pages cover its length. -/
theorem join_pages {α : Type} (m : Nat) :
    ∀ (n : Nat) (l : List α), l.length ≤ n * m →
      ((List.range n).map (fun k => (l.drop (k * m)).take m)).flatten = l := by
  intro n
  induction n with
  | zero =>
      intro l h
      have hl : l = [] := List.length_eq_zero.mp (Nat.le_zero.mp (by simpa using h))
      simp [hl]
  | succ n ih =>
      intro l h
      rw [List.range_succ_eq_map, List.map_cons, List.map_map, List.flatten_cons]
      have hmap : (List.range n).map ((fun k => (l.drop (k * m)).take m) ∘ Nat.succ)
          = (List.range n).map (fun k => ((l.drop m).drop (k * m)).take m) := by
        apply List.map_congr_left
        intro k _
        show (l.drop ((k + 1) * m)).take m = ((l.drop m).drop (k * m)).take m
        rw [List.drop_drop]
        have hk : (k + 1) * m = k * m + m := Nat.succ_mul k m
        rw [hk, Nat.add_comm]
      rw [Nat.succ_mul] at h
      rw [hmap, ih (l.drop m) (by rw [List.length_drop]; omega)]
      simp

/-- C6: list-experiments returns at most limit records, the reported total is
the size of the filtered sorted set before pagination, and the concatenation
of all pages at a fixed limit over increasing offsets (enough pages to cover
the total) is exactly the filtered, sorted set, each record once. -/
theorem get_experiments_pagination (exps : List ExperimentAggRow)
    (f : ExperimentFilterArgs) (sort_by sort_order : String) (offset limit : Nat) :
    (get_experiments exps offset limit f sort_by sort_order).1.length ≤ limit
    ∧ (get_experiments exps offset limit f sort_by sort_order).2
        = (experimentsQueryBase exps f sort_by sort_order).length
    ∧ ∀ n : Nat, (experimentsQueryBase exps f sort_by sort_order).length ≤ n * limit →
        ((List.range n).map
            (fun k => (get_experiments exps (k * limit) limit f sort_by sort_order).1)).flatten
          = experimentsQueryBase exps f sort_by sort_order := by
  refine ⟨?_, rfl, ?_⟩
  · show (((experimentsQueryBase exps f sort_by sort_order).drop offset).take limit).length
      ≤ limit
    exact List.length_take_le _ _
  · intro n hn
    exact join_pages limit n (experimentsQueryBase exps f sort_by sort_order) hn

theorem mem_costMergedRows (trials : List TrialAggRow) (exps : List ExperimentAggRow)
    (p : TrialAggRow × String) (hp : p ∈ costMergedRows trials exps) : p.1 ∈ trials := by
  rcases List.mem_filterMap.mp hp with ⟨t, ht, hmap⟩
  rcases Option.map_eq_some'.mp hmap with ⟨e, he, hpe⟩
  rw [← hpe]
  exact ht

theorem costGroupCost_nonneg (trials : List TrialAggRow) (exps : List ExperimentAggRow)
    (h : ∀ t ∈ trials, (0:ℚ) ≤ t.total_cost) (k : Int × String) :
    0 ≤ costGroupCost trials exps k := by
  apply List.sum_nonneg
  intro x hx
  rcases List.mem_map.mp hx with ⟨p, hp, hxp⟩
  rw [← hxp]
  have hpm : p ∈ costMergedRows trials exps := List.mem_of_mem_filter hp
  exact h p.1 (mem_costMergedRows trials exps p hpm)

theorem costGrandTotal_nonneg (trials : List TrialAggRow) (exps : List ExperimentAggRow)
    (h : ∀ t ∈ trials, (0:ℚ) ≤ t.total_cost) : 0 ≤ costGrandTotal trials exps := by
  apply List.sum_nonneg
  intro x hx
  rcases List.mem_map.mp hx with ⟨k, hk, hxk⟩
  rw [← hxk]
  exact costGroupCost_nonneg trials exps h k

theorem sum_map_div_mul (l : List ℚ) (T c : ℚ) :
    (l.map (fun x => x / T * c)).sum = l.sum / T * c := by
  induction l with
  | nil => simp
  | cons a l ih =>
      simp only [List.map_cons, List.sum_cons, ih]
      ring

theorem costRows_costs (trials : List TrialAggRow) (exps : List ExperimentAggRow) :
    (costRowsUnsorted trials exps).map CostRow.total_cost
      = (costGroupKeys trials exps).map (costGroupCost trials exps) := by
  unfold costRowsUnsorted
  rw [List.map_map]
  rfl

theorem costRows_percentage_of_pos (trials : List TrialAggRow) (exps : List ExperimentAggRow)
    (hT : 0 < costGrandTotal trials exps) :
    (costRowsUnsorted trials exps).map CostRow.percentage
      = (costGroupKeys trials exps).map
          (fun k => costGroupCost trials exps k / costGrandTotal trials exps * 100) := by
  unfold costRowsUnsorted
  rw [List.map_map]
  apply List.map_congr_left
  intro k _
  show (if 0 < costGrandTotal trials exps then
      costGroupCost trials exps k / costGrandTotal trials exps * 100 else 0)
    = costGroupCost trials exps k / costGrandTotal trials exps * 100
  exact if_pos hT

/-- C5: assuming the rolled-up trial costs are non-negative (runs carry
non-negative costs), the cost-by-experiment percentages sum to exactly 100
whenever the grand total over the returned rows is non-zero, every percentage
is 0 when the grand total is 0 (the division is guarded), and the rows come
back sorted descending by total_cost. -/
theorem cost_breakdown_properties (trials : List TrialAggRow) (exps : List ExperimentAggRow)
    (h : ∀ t ∈ trials, (0:ℚ) ≤ t.total_cost) :
    (((get_cost_by_experiment trials exps).map CostRow.total_cost).sum ≠ 0 →
        ((get_cost_by_experiment trials exps).map CostRow.percentage).sum = 100)
    ∧ (((get_cost_by_experiment trials exps).map CostRow.total_cost).sum = 0 →
        ∀ r ∈ get_cost_by_experiment trials exps, r.percentage = 0)
    ∧ (get_cost_by_experiment trials exps).Pairwise
        (fun a b => b.total_cost ≤ a.total_cost) := by
  have hperm : List.Perm (get_cost_by_experiment trials exps) (costRowsUnsorted trials exps) :=
    sortBy_perm _ _
  have hsumcost : ((get_cost_by_experiment trials exps).map CostRow.total_cost).sum
      = costGrandTotal trials exps := by
    rw [(hperm.map CostRow.total_cost).sum_eq, costRows_costs]
    rfl
  refine ⟨?_, ?_, ?_⟩
  · intro hne
    rw [hsumcost] at hne
    have hT : 0 < costGrandTotal trials exps :=
      lt_of_le_of_ne (costGrandTotal_nonneg trials exps h) (Ne.symm hne)
    rw [(hperm.map CostRow.percentage).sum_eq, costRows_percentage_of_pos trials exps hT]
    have hrw : (costGroupKeys trials exps).map
        (fun k => costGroupCost trials exps k / costGrandTotal trials exps * 100)
        = ((costGroupKeys trials exps).map (costGroupCost trials exps)).map
            (fun x => x / costGrandTotal trials exps * 100) := by
      rw [List.map_map]
      rfl
    rw [hrw, sum_map_div_mul]
    show costGrandTotal trials exps / costGrandTotal trials exps * 100 = 100
    rw [div_self (ne_of_gt hT), one_mul]
  · intro h0
    rw [hsumcost] at h0
    intro r hr
    have hr2 : r ∈ costRowsUnsorted trials exps := hperm.mem_iff.mp hr
    rcases List.mem_map.mp hr2 with ⟨k, hk, hkr⟩
    rw [← hkr]
    show (if 0 < costGrandTotal trials exps then
        costGroupCost trials exps k / costGrandTotal trials exps * 100 else 0) = 0
    rw [h0]
    simp
  · have hp := pairwise_sortBy
      (fun a b : CostRow => decide (b.total_cost ≤ a.total_cost))
      (fun x y => by
        rcases le_total y.total_cost x.total_cost with hxy | hxy
        · exact Or.inl (decide_eq_true hxy)
        · exact Or.inr (decide_eq_true hxy))
      (fun x y z hxy hyz => decide_eq_true
        (le_trans (of_decide_eq_true hyz) (of_decide_eq_true hxy)))
      (costRowsUnsorted trials exps)
    have hp2 : (get_cost_by_experiment trials exps).Pairwise
        (fun x y : CostRow => decide (y.total_cost ≤ x.total_cost) = true) := hp
    exact hp2.imp (fun hxy => of_decide_eq_true hxy)

/-- A rolled-up trial and its experiment, used to instantiate the
cost-breakdown theorem. -/
def sampleAggTrial : TrialAggRow :=
  { base := { id := 1, experiment_id := 1, status := TrialStatus.finished, created_at := 0,
              accuracy := some 1, duration_seconds := none }
    total_cost := 5, total_tokens := 10, avg_latency_ms := some 100, run_count := 1 }

def sampleAggExp : ExperimentAggRow :=
  { base := { id := 1, name := "a", project_id := "p", created_at := 0, is_deleted := false }
    avg_accuracy := some 1, total_cost := 5, total_trials := 1, total_runs := 1 }

/-- C5 witness: the theorem applied to one trial with cost 5 under one
experiment. -/
theorem cost_breakdown_properties_witness :
    (((get_cost_by_experiment [sampleAggTrial] [sampleAggExp]).map CostRow.total_cost).sum ≠ 0 →
        ((get_cost_by_experiment [sampleAggTrial] [sampleAggExp]).map CostRow.percentage).sum
          = 100)
    ∧ (((get_cost_by_experiment [sampleAggTrial] [sampleAggExp]).map CostRow.total_cost).sum = 0 →
        ∀ r ∈ get_cost_by_experiment [sampleAggTrial] [sampleAggExp], r.percentage = 0)
    ∧ (get_cost_by_experiment [sampleAggTrial] [sampleAggExp]).Pairwise
        (fun a b => b.total_cost ≤ a.total_cost) :=
  cost_breakdown_properties [sampleAggTrial] [sampleAggExp]
    (by
      intro t ht
      rcases List.mem_singleton.mp ht with rfl
      norm_num [sampleAggTrial])
